import Mathlib

/-!
Shallow embedding of the FnCAS optimizer core (`src/FnCAS/fncas/optimize.h`).

Double-precision values are represented by `ℚ`; finiteness of an objective value
(`fncas::IsNormal`) is represented by a separate oracle `fok : List ℚ → Bool`
telling whether the objective value at a point is finite, since the only place
the optimizer core inspects finiteness is `IsNormal(fi(candidate_point))`.
The numeric primitives and the backtracking line search live in `mathutil.h` /
`base.h`, which are not among the sources; they are modelled from the spec
(sections 4.7 and 4.8), with their doc comments saying so.
-/

namespace FnCAS

/-- A scalar objective value paired with the point it was computed at.  Mirrors
`fncas::ValueAndPoint` (declared in `base.h`, not among the sources); per the spec
(section 3) its ordering is by `value`, ascending. -/
structure ValueAndPoint where
  value : ℚ
  point : List ℚ
deriving DecidableEq

/-- Modelled from the spec: `std::min` over `ValueAndPoint` with the ordering by `value`
fixed in spec section 3 (`base.h` is not among the sources).  `std::min(a, b)` returns
`b` exactly when `b < a`, so ties keep the first argument. -/
def minVP (a b : ValueAndPoint) : ValueAndPoint :=
  if b.value < a.value then b else a

/-- Modelled from the spec: three-argument `SumVectors(a, b, kb)` from `mathutil.h`
(not among the sources): element-wise `a + kb * b`.  The call sites fix the semantics:
`SumVectors(current.point, g, -step)` must equal `current.point - step * g`
(spec section 4.4). -/
def SumVectors (a b : List ℚ) (kb : ℚ) : List ℚ :=
  List.zipWith (fun x y => x + kb * y) a b

/-- Modelled from the spec: four-argument `SumVectors(a, b, ka, kb)`: element-wise
`ka * a + kb * b`; the conjugate-gradient optimizer uses it as
`s = omega * s - new_gradient` (spec section 4.6). -/
def SumVectorsScaled (a b : List ℚ) (ka kb : ℚ) : List ℚ :=
  List.zipWith (fun x y => ka * x + kb * y) a b

/-- Dot product of two vectors, used by the line search and the Polak-Ribiere rule. -/
def dotVec (a b : List ℚ) : ℚ :=
  (List.zipWith (fun x y => x * y) a b).sum

/-- Modelled from the spec: `L2Norm(v)` from `mathutil.h` is the sum of squares; callers
take the square root themselves where a true norm is needed (spec section 4.8). -/
def L2Norm (v : List ℚ) : ℚ := dotVec v v

/-- Modelled from the spec: `FlipSign(v)` negates every element (spec section 4.8). -/
def FlipSign (v : List ℚ) : List ℚ := v.map (fun x => -x)

/-- Modelled from the spec: `PolakRibiere(a, b) = dot(a, a - b) / dot(b, b)`
(spec section 4.6).  Division is rational division; the `ℚ` convention `x / 0 = 0`
stands in for the IEEE special cases. -/
def PolakRibiere (a b : List ℚ) : ℚ :=
  dotVec a (List.zipWith (fun x y => x - y) a b) / dotVec b b

/-- Embedding of the comparison `std::sqrt(x) < e` for a non-negative `x` (every call
site passes `L2Norm v`, a sum of squares): when `e ≤ 0` the comparison is false, and
otherwise it is equivalent to `x < e * e`. -/
def sqrtLtQ (x e : ℚ) : Bool :=
  if e ≤ 0 then false else decide (x < e * e)

/-- Modelled from the spec (section 4.7): the backtracking loop.  `fx` is `f(x)` and
`slope` is `dot(gradient(x), direction)`, both evaluated once before the loop; `t` is
the current step size and `steps` the remaining halving budget.  The step is accepted
when the Armijo condition `f(x + t*d) ≤ f(x) + alpha*t*slope` holds; otherwise `t` is
multiplied by `beta` and the search retries; when the budget is exhausted the last
tried point is returned (the search never fails the run by itself). -/
def btSearch (f : List ℚ → ℚ) (x d : List ℚ) (alpha beta fx slope : ℚ) :
    Nat → ℚ → ValueAndPoint
  | 0, t => ⟨f (SumVectors x d t), SumVectors x d t⟩
  | steps + 1, t =>
    let p := SumVectors x d t
    let v := f p
    if v ≤ fx + alpha * t * slope then ⟨v, p⟩
    else btSearch f x d alpha beta fx slope steps (beta * t)

/-- Modelled from the spec (section 4.7): `fncas::Backtracking(fi, gi, x, direction,
alpha, beta, max_steps)`: starting step size `1.0`, Armijo sufficient-decrease test,
step-halving by `beta` within the given budget. -/
def Backtracking (f : List ℚ → ℚ) (g : List ℚ → List ℚ) (x d : List ℚ)
    (alpha beta : ℚ) (btMaxSteps : Nat) : ValueAndPoint :=
  btSearch f x d alpha beta (f x) (dotVec (g x) d) btMaxSteps 1

/-- Whether the backtracking search accepts some tried step via the Armijo condition
within the given budget (as opposed to returning the last tried point after
exhausting it). -/
def btAccepts (f : List ℚ → ℚ) (x d : List ℚ) (alpha beta fx slope : ℚ) :
    Nat → ℚ → Bool
  | 0, t => decide (f (SumVectors x d t) ≤ fx + alpha * t * slope)
  | steps + 1, t =>
    decide (f (SumVectors x d t) ≤ fx + alpha * t * slope) ||
      btAccepts f x d alpha beta fx slope steps (beta * t)

/-- Why the main loop of an optimizer ended, mirroring the logged termination reasons:
the iteration bound, the gradient-norm early stop, or the consecutive no-improvement
counter. -/
inductive ExitReason where
  | maxSteps
  | gradNorm
  | noImprovement
deriving DecidableEq

/-- The shared improvement test (source lines 179-180, 256-257 and 336-337): the step
from `cur` to `next` is an insufficient improvement when
`next / cur > 1 - minRel` or `cur - next < minAbs`. -/
def insufficientQ (minRel minAbs cur next : ℚ) : Bool :=
  decide (next / cur > 1 - minRel) || decide (cur - next < minAbs)

/-- The resolved parameters of `GradientDescentOptimizer::Optimize` (source lines
130-134).  `stepFactor` is declared by the source but never used, which the spec
notes; it is kept for fidelity.  `noImpTerm` is a double in the source (compared
against an `int` counter), hence `ℚ` here. -/
structure GDParams where
  maxSteps : Nat
  stepFactor : ℚ
  minAbs : ℚ
  minRel : ℚ
  noImpTerm : ℚ
deriving DecidableEq

/-- The resolved parameters shared by `GradientDescentOptimizerBT::Optimize` and
`ConjugateGradientOptimizer::Optimize` (source lines 208-216 and 286-294). -/
structure BTParams where
  minSteps : Nat
  maxSteps : Nat
  btAlpha : ℚ
  btBeta : ℚ
  btMaxSteps : Nat
  gradEps : ℚ
  minAbs : ℚ
  minRel : ℚ
  noImpTerm : ℚ
deriving DecidableEq

/-- The default parameter values of `GradientDescentOptimizer::Optimize`
(source lines 130-134). -/
def defaultGDParams : GDParams :=
  { maxSteps := 5000, stepFactor := 1, minAbs := 1 / 10 ^ 25, minRel := 1 / 10 ^ 25,
    noImpTerm := 2 }

/-- The default parameter values of the two backtracking-based optimizers
(source lines 208-216). -/
def defaultBTParams : BTParams :=
  { minSteps := 3, maxSteps := 5000, btAlpha := 1 / 2, btBeta := 4 / 5,
    btMaxSteps := 100, gradEps := 1 / 10 ^ 8, minAbs := 1 / 10 ^ 25,
    minRel := 1 / 10 ^ 25, noImpTerm := 2 }

/-- The fixed ordered trial step set of plain gradient descent (source line 166). -/
def gdSteps : List ℚ := [1 / 100, 1 / 20, 1 / 5]

/-- One trial step of the plain gradient-descent candidate scan (source lines 166-175):
build `candidate = current.point - step * g`; if its objective value is finite,
fold it into the running best via `std::min` and set the valid flag. -/
def gdScanStep (f : List ℚ → ℚ) (fok : List ℚ → Bool) (pt grad : List ℚ)
    (acc : ValueAndPoint × Bool) (step : ℚ) : ValueAndPoint × Bool :=
  let p := SumVectors pt grad (-step)
  if fok p then (minVP acc.1 ⟨f p, p⟩, true) else acc

/-- The candidate scan of one plain gradient-descent iteration (source lines 164-175):
`best_candidate` starts at `current`, `has_valid_candidate` starts false, and the
three trial steps are folded in order. -/
def gdScan (f : List ℚ → ℚ) (fok : List ℚ → Bool) (cur : ValueAndPoint)
    (grad : List ℚ) : ValueAndPoint × Bool :=
  gdSteps.foldl (gdScanStep f fok cur.point grad) (cur, false)

/-- The main loop of `GradientDescentOptimizer::Optimize` (source lines 159-190),
as a fuel recursion on the remaining iteration budget.  The second component counts
the loop-body entries executed.  On `!has_valid_candidate` the run fails with the
`FnCASOptimizationException` diagnostic (line 177); when the no-improvement counter
reaches the threshold the loop breaks before `current = best_candidate` (lines
182-185 precede line 189). -/
def gdLoop (f : List ℚ → ℚ) (fok : List ℚ → Bool) (g : List ℚ → List ℚ)
    (pr : GDParams) : Nat → ValueAndPoint → Nat →
    Except String (ValueAndPoint × ExitReason) × Nat
  | 0, cur, _ => (Except.ok (cur, ExitReason.maxSteps), 0)
  | fuel + 1, cur, noImp =>
    let sc := gdScan f fok cur (g cur.point)
    if sc.2 = false then (Except.error "!fncas::IsNormal(value)", 1)
    else if insufficientQ pr.minRel pr.minAbs cur.value sc.1.value then
      if pr.noImpTerm ≤ ((noImp : ℚ) + 1) then
        (Except.ok (cur, ExitReason.noImprovement), 1)
      else
        let r := gdLoop f fok g pr fuel sc.1 (noImp + 1)
        (r.1, r.2 + 1)
    else
      let r := gdLoop f fok g pr fuel sc.1 0
      (r.1, r.2 + 1)

/-- `GradientDescentOptimizer::Optimize` (source lines 129-196): evaluate the starting
value once, then run the main loop from `(starting_value, starting_point)` with the
no-improvement counter at zero. -/
def GradientDescentOptimize (f : List ℚ → ℚ) (fok : List ℚ → Bool)
    (g : List ℚ → List ℚ) (pr : GDParams) (start : List ℚ) :
    Except String (ValueAndPoint × ExitReason) × Nat :=
  gdLoop f fok g pr pr.maxSteps ⟨f start, start⟩ 0

/-- The main loop of `GradientDescentOptimizerBT::Optimize` (source lines 242-268).
`iter` is the source's `iteration` index (used by the `iteration >= min_steps` early
stop).  The gradient-norm early stop (line 248) is checked at the top of the body;
the no-improvement break (lines 259-262) happens before `current = next` (line 267). -/
def btLoop (f : List ℚ → ℚ) (g : List ℚ → List ℚ) (pr : BTParams) :
    Nat → Nat → ValueAndPoint → Nat → (ValueAndPoint × ExitReason) × Nat
  | 0, _, cur, _ => ((cur, ExitReason.maxSteps), 0)
  | fuel + 1, iter, cur, noImp =>
    let direction := g cur.point
    if sqrtLtQ (L2Norm direction) pr.gradEps && decide (pr.minSteps ≤ iter) then
      ((cur, ExitReason.gradNorm), 1)
    else
      let next := Backtracking f g cur.point (FlipSign direction)
        pr.btAlpha pr.btBeta pr.btMaxSteps
      if insufficientQ pr.minRel pr.minAbs cur.value next.value then
        if pr.noImpTerm ≤ ((noImp : ℚ) + 1) then
          ((cur, ExitReason.noImprovement), 1)
        else
          let r := btLoop f g pr fuel (iter + 1) next (noImp + 1)
          (r.1, r.2 + 1)
      else
        let r := btLoop f g pr fuel (iter + 1) next 0
        (r.1, r.2 + 1)

/-- `GradientDescentOptimizerBT::Optimize` (source lines 207-274). -/
def GradientDescentOptimizeBT (f : List ℚ → ℚ) (g : List ℚ → List ℚ)
    (pr : BTParams) (start : List ℚ) : (ValueAndPoint × ExitReason) × Nat :=
  btLoop f g pr pr.maxSteps 0 ⟨f start, start⟩ 0

/-- The main loop of `ConjugateGradientOptimizer::Optimize` (source lines 324-354):
line search along `s`, new gradient, nonnegative-clamped Polak-Ribiere coefficient,
direction update `s = omega * s - new_gradient`, then the improvement test (breaking
before `current = next`, lines 339-342 precede line 347), and finally — only when the
loop continues past the test — the gradient-norm early stop on the updated `s`
(line 351), which returns the just-adopted `next`. -/
def cgLoop (f : List ℚ → ℚ) (g : List ℚ → List ℚ) (pr : BTParams) :
    Nat → Nat → ValueAndPoint → List ℚ → List ℚ → Nat →
    (ValueAndPoint × ExitReason) × Nat
  | 0, _, cur, _, _, _ => ((cur, ExitReason.maxSteps), 0)
  | fuel + 1, iter, cur, curGrad, s, noImp =>
    let next := Backtracking f g cur.point s pr.btAlpha pr.btBeta pr.btMaxSteps
    let newGrad := g next.point
    let omega := max (PolakRibiere newGrad curGrad) 0
    let s2 := SumVectorsScaled s newGrad omega (-1)
    let cont : Option Nat :=
      if insufficientQ pr.minRel pr.minAbs cur.value next.value then
        if pr.noImpTerm ≤ ((noImp : ℚ) + 1) then none else some (noImp + 1)
      else some 0
    match cont with
    | none => ((cur, ExitReason.noImprovement), 1)
    | some k =>
      if sqrtLtQ (L2Norm s2) pr.gradEps && decide (pr.minSteps ≤ iter) then
        ((next, ExitReason.gradNorm), 1)
      else
        let r := cgLoop f g pr fuel (iter + 1) next newGrad s2 k
        (r.1, r.2 + 1)

/-- `ConjugateGradientOptimizer::Optimize` (source lines 285-359): the initial search
direction is the flipped starting gradient. -/
def ConjugateGradientOptimize (f : List ℚ → ℚ) (g : List ℚ → List ℚ)
    (pr : BTParams) (start : List ℚ) : (ValueAndPoint × ExitReason) × Nat :=
  cgLoop f g pr pr.maxSteps 0 ⟨f start, start⟩ (g start) (FlipSign (g start)) 0

deriving instance DecidableEq for Except

/-- The trial candidates of one plain gradient-descent iteration whose objective value
is finite, in the listed step order.  Stated from the claim wording, for comparison
with the code's running scan. -/
def gdFiniteCandidates (f : List ℚ → ℚ) (fok : List ℚ → Bool)
    (pt grad : List ℚ) : List ValueAndPoint :=
  gdSteps.filterMap fun step =>
    let p := SumVectors pt grad (-step)
    if fok p then some ⟨f p, p⟩ else none

/-- Stated from the claim wording: the candidate of minimal value in a list, ties
broken in favor of the earlier-listed candidate. -/
def firstMinVP : List ValueAndPoint → Option ValueAndPoint
  | [] => none
  | c :: rest =>
    match firstMinVP rest with
    | none => some c
    | some m => some (if m.value < c.value then m else c)

/-- Left fold of the running `std::min` over a list of candidates, starting from `acc`. -/
def foldMinVP (acc : ValueAndPoint) (l : List ValueAndPoint) : ValueAndPoint :=
  l.foldl minVP acc

/-- The all-zero vector of the same dimension as `l`; the gradient of a constant
objective. -/
def zeroVec (l : List ℚ) : List ℚ := l.map (fun _ => 0)

/-- The reachability predicate behind the single failure mode of plain gradient
descent: from the given loop state, some executed iteration finds no finite trial
candidate (`!has_valid_candidate`, source line 176). -/
inductive GDReachesBad (f : List ℚ → ℚ) (fok : List ℚ → Bool) (g : List ℚ → List ℚ)
    (pr : GDParams) : Nat → ValueAndPoint → Nat → Prop where
  | here (fuel : Nat) (cur : ValueAndPoint) (noImp : Nat) :
      (gdScan f fok cur (g cur.point)).2 = false →
      GDReachesBad f fok g pr (fuel + 1) cur noImp
  | laterInsuff (fuel : Nat) (cur : ValueAndPoint) (noImp : Nat) :
      (gdScan f fok cur (g cur.point)).2 = true →
      insufficientQ pr.minRel pr.minAbs cur.value (gdScan f fok cur (g cur.point)).1.value = true →
      ¬ pr.noImpTerm ≤ ((noImp : ℚ) + 1) →
      GDReachesBad f fok g pr fuel (gdScan f fok cur (g cur.point)).1 (noImp + 1) →
      GDReachesBad f fok g pr (fuel + 1) cur noImp
  | laterSuff (fuel : Nat) (cur : ValueAndPoint) (noImp : Nat) :
      (gdScan f fok cur (g cur.point)).2 = true →
      insufficientQ pr.minRel pr.minAbs cur.value (gdScan f fok cur (g cur.point)).1.value = false →
      GDReachesBad f fok g pr fuel (gdScan f fok cur (g cur.point)).1 0 →
      GDReachesBad f fok g pr (fuel + 1) cur noImp

/-- The parameter map of `OptimizerParameters` (source line 62, `std::map<std::string,
double>`), modelled as an association list whose keys are kept unique by `SetValue`. -/
abbrev ParamStore := List (String × ℚ)

/-- `OptimizerParameters::SetValue` (source lines 65-69): stores the value uniformly as
a double (`params_[name] = value`), overwriting any previous entry for the name. -/
def SetValue (m : ParamStore) (name : String) (v : ℚ) : ParamStore :=
  (name, v) :: m.filter (fun kv => !(kv.1 == name))

/-- `OptimizerParameters::SetValue` instantiated at an integer argument type: the C++
assignment converts the value to double on storage; the conversion is exact in this
model. -/
def SetValueInt (m : ParamStore) (name : String) (k : ℤ) : ParamStore :=
  SetValue m name (k : ℚ)

/-- Truncation toward zero: the C++ `static_cast` from double to a signed integer
type. -/
def truncQ (q : ℚ) : ℤ :=
  if q < 0 then -(Int.ofNat (q.num.natAbs / q.den)) else Int.ofNat (q.num.natAbs / q.den)

/-- `OptimizerParameters::GetValue` at type double (source lines 71-79): the stored
value if the name is set, else the caller-supplied default. -/
def GetValue (m : ParamStore) (name : String) (d : ℚ) : ℚ :=
  match m.lookup name with
  | some v => v
  | none => d

/-- `OptimizerParameters::GetValue` at an integer type: the stored double is cast back
with `static_cast<T>`, truncating toward zero; unset names yield the default. -/
def GetValueInt (m : ParamStore) (name : String) (d : ℤ) : ℤ :=
  match m.lookup name with
  | some v => truncQ v
  | none => d

/-- A finiteness oracle declaring every objective value finite. -/
def allFiniteOracle (_ : List ℚ) : Bool := true

/-- A finiteness oracle declaring every objective value non-finite (an objective that
is infinite or NaN everywhere). -/
def noneFiniteOracle (_ : List ℚ) : Bool := false

/-- A one-dimensional objective used to exercise the terminating no-improvement
iteration of plain gradient descent: value `1` at the start `[0]`, a small improvement
`1/2` at the first trial candidate `[-1/100]`, worse elsewhere. -/
def exStepF (p : List ℚ) : ℚ :=
  if p = [-(1 / 100)] then 1 / 2 else if p = [0] then 1 else 2

/-- A gradient evaluator that is constantly `[1]`. -/
def exUnitG (_ : List ℚ) : List ℚ := [1]

/-- Parameters making a `1/2` improvement insufficient (`minAbs = 1`) and terminating
after a single no-improvement iteration. -/
def exGDParams : GDParams :=
  { maxSteps := 5, stepFactor := 1, minAbs := 1, minRel := 1 / 2, noImpTerm := 1 }

/-- A one-dimensional objective whose every trial candidate is worse than the current
point `[1]` (value `1` there): the three candidates `[99/100]`, `[19/20]`, `[4/5]`
evaluate to `2`, `3`, `4`. -/
def exWorseF (p : List ℚ) : ℚ :=
  if p = [99 / 100] then 2
  else if p = [19 / 20] then 3
  else if p = [4 / 5] then 4
  else 1

/-- A one-dimensional objective forcing backtracking-budget exhaustion: value `1` only
at the start `[10]`, value `2` everywhere else, so the Armijo condition never holds. -/
def exCliffF (p : List ℚ) : ℚ := if p = [10] then 1 else 2

/-- Backtracking parameters with a tiny halving budget (`btMaxSteps = 2`), otherwise
default-like. -/
def exBTParams : BTParams :=
  { minSteps := 3, maxSteps := 5, btAlpha := 1 / 2, btBeta := 4 / 5,
    btMaxSteps := 2, gradEps := 1 / 100000000, minAbs := 1 / 10,
    minRel := 1 / 10, noImpTerm := 2 }

/-- A constant objective of value `5`. -/
def exConstF (_ : List ℚ) : ℚ := 5

/-- A gradient evaluator with a huge constant gradient `[10^10 + 1]`, whose squared
norm is at least `grad_eps^2 = 10^20` when `grad_eps = 10^10`. -/
def exHugeG (_ : List ℚ) : List ℚ := [10000000001]

/-- Backtracking parameters with `min_steps = 0` and `grad_eps = 10^10`, the parameter
override scenario of the spec (section 8.7), with a small iteration and halving budget
to keep evaluation finite. -/
def exOverrideParams : BTParams :=
  { minSteps := 0, maxSteps := 1, btAlpha := 1 / 2, btBeta := 1 / 2,
    btMaxSteps := 1, gradEps := 10000000000, minAbs := 1 / 10,
    minRel := 1 / 10, noImpTerm := 2 }

/-- A gradient evaluator that is constantly zero (the gradient of a constant
objective), dimension-matched to its input point. -/
def exZeroG (p : List ℚ) : List ℚ := zeroVec p

/-- `GDParams` with `maxSteps = 0`. -/
def exGDZeroSteps : GDParams :=
  { maxSteps := 0, stepFactor := 1, minAbs := 1, minRel := 1, noImpTerm := 2 }

/-- `BTParams` with `maxSteps = 0`. -/
def exBTZeroSteps : BTParams :=
  { minSteps := 0, maxSteps := 0, btAlpha := 1 / 2, btBeta := 4 / 5,
    btMaxSteps := 100, gradEps := 1 / 100000000, minAbs := 1 / 10,
    minRel := 1 / 10, noImpTerm := 2 }

/-- The number of loop-body entries of the plain gradient-descent loop never exceeds
the iteration budget. -/
theorem gdLoop_count_le (f : List ℚ → ℚ) (fok : List ℚ → Bool) (g : List ℚ → List ℚ)
    (pr : GDParams) : ∀ (fuel : Nat) (cur : ValueAndPoint) (noImp : Nat),
    (gdLoop f fok g pr fuel cur noImp).2 ≤ fuel := by
  intro fuel
  induction fuel with
  | zero => intro cur noImp; simp [gdLoop]
  | succ n ih =>
    intro cur noImp
    simp only [gdLoop]
    split
    · simp
    · split
      · split
        · simp
        · exact Nat.succ_le_succ (ih _ _)
      · exact Nat.succ_le_succ (ih _ _)

/-- The number of loop-body entries of the backtracking gradient-descent loop never
exceeds the iteration budget. -/
theorem btLoop_count_le (f : List ℚ → ℚ) (g : List ℚ → List ℚ) (pr : BTParams) :
    ∀ (fuel iter : Nat) (cur : ValueAndPoint) (noImp : Nat),
    (btLoop f g pr fuel iter cur noImp).2 ≤ fuel := by
  intro fuel
  induction fuel with
  | zero => intro iter cur noImp; simp [btLoop]
  | succ n ih =>
    intro iter cur noImp
    simp only [btLoop]
    split
    · simp
    · split
      · split
        · simp
        · exact Nat.succ_le_succ (ih _ _ _)
      · exact Nat.succ_le_succ (ih _ _ _)

/-- The number of loop-body entries of the conjugate-gradient loop never exceeds the
iteration budget. -/
theorem cgLoop_count_le (f : List ℚ → ℚ) (g : List ℚ → List ℚ) (pr : BTParams) :
    ∀ (fuel iter : Nat) (cur : ValueAndPoint) (curGrad s : List ℚ) (noImp : Nat),
    (cgLoop f g pr fuel iter cur curGrad s noImp).2 ≤ fuel := by
  intro fuel
  induction fuel with
  | zero => intro iter cur curGrad s noImp; simp [cgLoop]
  | succ n ih =>
    intro iter cur curGrad s noImp
    simp only [cgLoop]
    split
    · simp
    · split
      · simp
      · exact Nat.succ_le_succ (ih _ _ _ _ _)

/-- Claim C5: every call to an optimizer's `Optimize` executes at most `max_steps`
iterations of its main loop, for each of the three optimizers; in particular
`max_steps = 1` yields at most one loop-body pass. -/
theorem claim5_theorem :
    ∀ (f : List ℚ → ℚ) (fok : List ℚ → Bool) (g : List ℚ → List ℚ)
      (pr : GDParams) (prb : BTParams) (x : List ℚ),
      (GradientDescentOptimize f fok g pr x).2 ≤ pr.maxSteps
      ∧ (GradientDescentOptimizeBT f g prb x).2 ≤ prb.maxSteps
      ∧ (ConjugateGradientOptimize f g prb x).2 ≤ prb.maxSteps := by
  intro f fok g pr prb x
  exact ⟨gdLoop_count_le f fok g pr pr.maxSteps _ 0,
         btLoop_count_le f g prb prb.maxSteps 0 _ 0,
         cgLoop_count_le f g prb prb.maxSteps 0 _ _ _ 0⟩

/-- Truncation toward zero of an integer-valued rational recovers the integer. -/
theorem truncQ_intCast (k : ℤ) : truncQ (k : ℚ) = k := by
  unfold truncQ
  rw [Rat.num_intCast, Rat.den_intCast]
  have hcast : Int.ofNat k.natAbs = (k.natAbs : ℤ) := rfl
  split
  · next h =>
    have hk : k < 0 := by exact_mod_cast Int.cast_lt_zero.mp h
    simp only [Nat.div_one, hcast]
    omega
  · next h =>
    have hk : ¬ k < 0 := fun hc => h (by exact_mod_cast Int.cast_lt_zero.mpr hc)
    simp only [Nat.div_one, hcast]
    omega

/-- Claim C7: `SetValue` stores uniformly as a double and overwrites; `GetValue`
returns the stored value coerced to the requested numeric type, and the
caller-supplied default — never an error — for names never set. -/
theorem claim7_theorem :
    (∀ (m : ParamStore) (n : String) (v d : ℚ), GetValue (SetValue m n v) n d = v)
    ∧ (∀ (m : ParamStore) (n : String) (v1 v2 d : ℚ),
        GetValue (SetValue (SetValue m n v1) n v2) n d = v2)
    ∧ (∀ (m : ParamStore) (n : String) (k : ℤ) (d : ℤ),
        GetValueInt (SetValueInt m n k) n d = k)
    ∧ (∀ (m : ParamStore) (n : String) (v : ℚ) (d : ℤ),
        GetValueInt (SetValue m n v) n d = truncQ v)
    ∧ (∀ (m : ParamStore) (n : String) (k : ℤ) (d : ℚ),
        GetValue (SetValueInt m n k) n d = (k : ℚ))
    ∧ (∀ (m : ParamStore) (n : String) (d : ℚ),
        m.lookup n = none → GetValue m n d = d)
    ∧ (∀ (m : ParamStore) (n : String) (d : ℤ),
        m.lookup n = none → GetValueInt m n d = d) := by
  refine ⟨?_, ?_, ?_, ?_, ?_, ?_, ?_⟩
  · intro m n v d; simp [GetValue, SetValue, List.lookup]
  · intro m n v1 v2 d; simp [GetValue, SetValue, List.lookup]
  · intro m n k d; simp [GetValueInt, SetValueInt, SetValue, List.lookup, truncQ_intCast]
  · intro m n v d; simp [GetValueInt, SetValue, List.lookup]
  · intro m n k d; simp [GetValue, SetValueInt, SetValue, List.lookup]
  · intro m n d h; simp [GetValue, h]
  · intro m n d h; simp [GetValueInt, h]

/-- Witness for claim C7 at concrete inputs: setting then reading back, in both
coercion directions, and reading an unset name. -/
theorem claim7_witness :
    GetValue (SetValue [] "max_steps" (7 / 2)) "max_steps" 0 = 7 / 2
    ∧ GetValueInt (SetValue [] "max_steps" (7 / 2)) "max_steps" 0 = truncQ (7 / 2)
    ∧ GetValue ([] : ParamStore) "never_set" 5 = 5 :=
  ⟨claim7_theorem.1 [] "max_steps" (7 / 2) 0,
   claim7_theorem.2.2.2.1 [] "max_steps" (7 / 2) 0,
   claim7_theorem.2.2.2.2.2.1 [] "never_set" 5 rfl⟩

/-- Claim C9: the optimizers are deterministic — identical starting point, parameters
and objective evaluators produce identical results, for each of the three
optimizers (the embedding of the core is a pure function of these inputs; the source
contains no randomness or hidden state affecting the result). -/
theorem claim9_theorem :
    ∀ (f1 f2 : List ℚ → ℚ) (fok1 fok2 : List ℚ → Bool) (g1 g2 : List ℚ → List ℚ)
      (pr1 pr2 : GDParams) (prb1 prb2 : BTParams) (x1 x2 : List ℚ),
      f1 = f2 → fok1 = fok2 → g1 = g2 → pr1 = pr2 → prb1 = prb2 → x1 = x2 →
      GradientDescentOptimize f1 fok1 g1 pr1 x1 = GradientDescentOptimize f2 fok2 g2 pr2 x2
      ∧ GradientDescentOptimizeBT f1 g1 prb1 x1 = GradientDescentOptimizeBT f2 g2 prb2 x2
      ∧ ConjugateGradientOptimize f1 g1 prb1 x1 = ConjugateGradientOptimize f2 g2 prb2 x2 := by
  intro f1 f2 fok1 fok2 g1 g2 pr1 pr2 prb1 prb2 x1 x2 h1 h2 h3 h4 h5 h6
  subst h1; subst h2; subst h3; subst h4; subst h5; subst h6
  exact ⟨rfl, rfl, rfl⟩

/-- Witness for claim C9: two textually separate runs on the same concrete inputs
agree. -/
theorem claim9_witness :
    GradientDescentOptimize exStepF allFiniteOracle exUnitG exGDParams [0]
      = GradientDescentOptimize exStepF allFiniteOracle exUnitG exGDParams [0]
    ∧ GradientDescentOptimizeBT exStepF exUnitG exBTParams [0]
      = GradientDescentOptimizeBT exStepF exUnitG exBTParams [0]
    ∧ ConjugateGradientOptimize exStepF exUnitG exBTParams [0]
      = ConjugateGradientOptimize exStepF exUnitG exBTParams [0] :=
  claim9_theorem exStepF exStepF allFiniteOracle allFiniteOracle exUnitG exUnitG
    exGDParams exGDParams exBTParams exBTParams [0] [0] rfl rfl rfl rfl rfl rfl

/-- Claim C10: with an effective `max_steps` of zero, each optimizer executes zero loop
iterations and returns exactly the pair (objective value at the starting point,
starting point) without raising any error.  The finiteness oracle `fok` is arbitrary,
covering in particular a non-finite starting value: plain gradient descent only tests
finiteness on trial candidates of an executed iteration, never on the starting
value. -/
theorem claim10_theorem :
    ∀ (f : List ℚ → ℚ) (fok : List ℚ → Bool) (g : List ℚ → List ℚ)
      (pr : GDParams) (prb : BTParams) (x : List ℚ),
      pr.maxSteps = 0 → prb.maxSteps = 0 →
      GradientDescentOptimize f fok g pr x
          = (Except.ok (⟨f x, x⟩, ExitReason.maxSteps), 0)
      ∧ GradientDescentOptimizeBT f g prb x = ((⟨f x, x⟩, ExitReason.maxSteps), 0)
      ∧ ConjugateGradientOptimize f g prb x = ((⟨f x, x⟩, ExitReason.maxSteps), 0) := by
  intro f fok g pr prb x h1 h2
  refine ⟨?_, ?_, ?_⟩
  · simp [GradientDescentOptimize, h1, gdLoop]
  · simp [GradientDescentOptimizeBT, h2, btLoop]
  · simp [ConjugateGradientOptimize, h2, cgLoop]

/-- Witness for claim C10: `max_steps = 0` on a run whose starting value is declared
non-finite by the oracle still returns the starting pair with no error. -/
theorem claim10_witness :
    GradientDescentOptimize exConstF noneFiniteOracle exUnitG exGDZeroSteps [3]
        = (Except.ok (⟨5, [3]⟩, ExitReason.maxSteps), 0)
    ∧ GradientDescentOptimizeBT exConstF exUnitG exBTZeroSteps [3]
        = ((⟨5, [3]⟩, ExitReason.maxSteps), 0)
    ∧ ConjugateGradientOptimize exConstF exUnitG exBTZeroSteps [3]
        = ((⟨5, [3]⟩, ExitReason.maxSteps), 0) :=
  claim10_theorem exConstF noneFiniteOracle exUnitG exGDZeroSteps exBTZeroSteps [3]
    rfl rfl

/-- Backtracking parameters like `exBTParams` but terminating after a single
no-improvement iteration. -/
def exBTOneParams : BTParams :=
  { minSteps := 3, maxSteps := 5, btAlpha := 1 / 2, btBeta := 4 / 5,
    btMaxSteps := 2, gradEps := 1 / 100000000, minAbs := 1 / 10,
    minRel := 1 / 10, noImpTerm := 1 }

/-- Counterexample for claim C1: in the run of plain gradient descent on `exStepF`
from `[0]`, the first iteration has a valid (finite) best candidate
`(1/2, [-1/100])`, the improvement is insufficient and the counter reaches the
threshold, and the loop exits holding the pre-iteration `current = (1, [0])`: the
iteration does NOT end with `current` updated to its best candidate. -/
theorem claim1_counterexample :
    (GradientDescentOptimize exStepF allFiniteOracle exUnitG exGDParams [0]).1
        = Except.ok (⟨1, [0]⟩, ExitReason.noImprovement)
    ∧ (gdScan exStepF allFiniteOracle ⟨1, [0]⟩ (exUnitG [0])).1 = ⟨1 / 2, [-(1 / 100)]⟩
    ∧ (gdScan exStepF allFiniteOracle ⟨1, [0]⟩ (exUnitG [0])).2 = true
    ∧ ((⟨1 / 2, [-(1 / 100)]⟩ : ValueAndPoint) ≠ ⟨1, [0]⟩) := by
  refine ⟨?_, ?_, ?_, ?_⟩ <;> with_unfolding_all decide

/-- Claim C1 as amended: the position update happens in every iteration that produced
a valid candidate EXCEPT the one on which the no-improvement counter reaches the
threshold, where the loop breaks before `current = best_candidate` and returns the
pre-iteration `current`; likewise `GradientDescentOptimizerBT` adopts `current = next`
in every iteration except its terminating no-improvement iteration, which returns the
pre-iteration `current`. -/
theorem claim1_theorem :
    (∀ (f : List ℚ → ℚ) (fok : List ℚ → Bool) (g : List ℚ → List ℚ) (pr : GDParams)
        (fuel : Nat) (cur : ValueAndPoint) (noImp : Nat),
        (gdScan f fok cur (g cur.point)).2 = true →
        insufficientQ pr.minRel pr.minAbs cur.value
            (gdScan f fok cur (g cur.point)).1.value = true →
        pr.noImpTerm ≤ ((noImp : ℚ) + 1) →
        gdLoop f fok g pr (fuel + 1) cur noImp
          = (Except.ok (cur, ExitReason.noImprovement), 1))
    ∧ (∀ (f : List ℚ → ℚ) (fok : List ℚ → Bool) (g : List ℚ → List ℚ) (pr : GDParams)
        (fuel : Nat) (cur : ValueAndPoint) (noImp : Nat),
        (gdScan f fok cur (g cur.point)).2 = true →
        insufficientQ pr.minRel pr.minAbs cur.value
            (gdScan f fok cur (g cur.point)).1.value = true →
        ¬ pr.noImpTerm ≤ ((noImp : ℚ) + 1) →
        gdLoop f fok g pr (fuel + 1) cur noImp
          = ((gdLoop f fok g pr fuel (gdScan f fok cur (g cur.point)).1 (noImp + 1)).1,
             (gdLoop f fok g pr fuel (gdScan f fok cur (g cur.point)).1 (noImp + 1)).2 + 1))
    ∧ (∀ (f : List ℚ → ℚ) (fok : List ℚ → Bool) (g : List ℚ → List ℚ) (pr : GDParams)
        (fuel : Nat) (cur : ValueAndPoint) (noImp : Nat),
        (gdScan f fok cur (g cur.point)).2 = true →
        insufficientQ pr.minRel pr.minAbs cur.value
            (gdScan f fok cur (g cur.point)).1.value = false →
        gdLoop f fok g pr (fuel + 1) cur noImp
          = ((gdLoop f fok g pr fuel (gdScan f fok cur (g cur.point)).1 0).1,
             (gdLoop f fok g pr fuel (gdScan f fok cur (g cur.point)).1 0).2 + 1))
    ∧ (∀ (f : List ℚ → ℚ) (g : List ℚ → List ℚ) (pr : BTParams)
        (fuel iter : Nat) (cur : ValueAndPoint) (noImp : Nat),
        (sqrtLtQ (L2Norm (g cur.point)) pr.gradEps && decide (pr.minSteps ≤ iter)) = false →
        insufficientQ pr.minRel pr.minAbs cur.value
            (Backtracking f g cur.point (FlipSign (g cur.point))
              pr.btAlpha pr.btBeta pr.btMaxSteps).value = true →
        pr.noImpTerm ≤ ((noImp : ℚ) + 1) →
        btLoop f g pr (fuel + 1) iter cur noImp
          = ((cur, ExitReason.noImprovement), 1))
    ∧ (∀ (f : List ℚ → ℚ) (g : List ℚ → List ℚ) (pr : BTParams)
        (fuel iter : Nat) (cur : ValueAndPoint) (noImp : Nat),
        (sqrtLtQ (L2Norm (g cur.point)) pr.gradEps && decide (pr.minSteps ≤ iter)) = false →
        insufficientQ pr.minRel pr.minAbs cur.value
            (Backtracking f g cur.point (FlipSign (g cur.point))
              pr.btAlpha pr.btBeta pr.btMaxSteps).value = true →
        ¬ pr.noImpTerm ≤ ((noImp : ℚ) + 1) →
        btLoop f g pr (fuel + 1) iter cur noImp
          = ((btLoop f g pr fuel (iter + 1)
                (Backtracking f g cur.point (FlipSign (g cur.point))
                  pr.btAlpha pr.btBeta pr.btMaxSteps) (noImp + 1)).1,
             (btLoop f g pr fuel (iter + 1)
                (Backtracking f g cur.point (FlipSign (g cur.point))
                  pr.btAlpha pr.btBeta pr.btMaxSteps) (noImp + 1)).2 + 1))
    ∧ (∀ (f : List ℚ → ℚ) (g : List ℚ → List ℚ) (pr : BTParams)
        (fuel iter : Nat) (cur : ValueAndPoint) (noImp : Nat),
        (sqrtLtQ (L2Norm (g cur.point)) pr.gradEps && decide (pr.minSteps ≤ iter)) = false →
        insufficientQ pr.minRel pr.minAbs cur.value
            (Backtracking f g cur.point (FlipSign (g cur.point))
              pr.btAlpha pr.btBeta pr.btMaxSteps).value = false →
        btLoop f g pr (fuel + 1) iter cur noImp
          = ((btLoop f g pr fuel (iter + 1)
                (Backtracking f g cur.point (FlipSign (g cur.point))
                  pr.btAlpha pr.btBeta pr.btMaxSteps) 0).1,
             (btLoop f g pr fuel (iter + 1)
                (Backtracking f g cur.point (FlipSign (g cur.point))
                  pr.btAlpha pr.btBeta pr.btMaxSteps) 0).2 + 1)) := by
  refine ⟨?_, ?_, ?_, ?_, ?_, ?_⟩
  · intro f fok g pr fuel cur noImp h1 h2 h3
    simp [gdLoop, h1, h2, h3]
  · intro f fok g pr fuel cur noImp h1 h2 h3
    simp [gdLoop, h1, h2, h3]
  · intro f fok g pr fuel cur noImp h1 h2
    simp [gdLoop, h1, h2]
  · intro f g pr fuel iter cur noImp h1 h2 h3
    simp [btLoop, h1, h2, h3]
  · intro f g pr fuel iter cur noImp h1 h2 h3
    simp [btLoop, h1, h2, h3]
  · intro f g pr fuel iter cur noImp h1 h2
    simp [btLoop, h1, h2]

/-- Witness for claim C1: the terminating no-improvement iteration of each of the two
loops, at concrete inputs, returns the pre-iteration `current`. -/
theorem claim1_witness :
    gdLoop exStepF allFiniteOracle exUnitG exGDParams (4 + 1) ⟨1, [0]⟩ 0
        = (Except.ok (⟨1, [0]⟩, ExitReason.noImprovement), 1)
    ∧ btLoop exCliffF exUnitG exBTOneParams (4 + 1) 0 ⟨1, [10]⟩ 0
        = ((⟨1, [10]⟩, ExitReason.noImprovement), 1) :=
  ⟨claim1_theorem.1 exStepF allFiniteOracle exUnitG exGDParams 4 ⟨1, [0]⟩ 0
      (by with_unfolding_all decide) (by with_unfolding_all decide)
      (by with_unfolding_all decide),
   claim1_theorem.2.2.2.1 exCliffF exUnitG exBTOneParams 4 0 ⟨1, [10]⟩ 0
      (by with_unfolding_all decide) (by with_unfolding_all decide)
      (by with_unfolding_all decide)⟩

/-- The finite-candidate list of a candidate scan over an arbitrary step list
(generalizing `gdFiniteCandidates` for the fold lemmas). -/
def candList (f : List ℚ → ℚ) (fok : List ℚ → Bool) (pt grad : List ℚ)
    (steps : List ℚ) : List ValueAndPoint :=
  steps.filterMap fun step =>
    let p := SumVectors pt grad (-step)
    if fok p then some ⟨f p, p⟩ else none

/-- The candidate scan is the running `std::min` fold over the finite candidates,
with the valid flag recording whether any candidate was finite. -/
theorem gdScanStep_foldl (f : List ℚ → ℚ) (fok : List ℚ → Bool) (pt grad : List ℚ) :
    ∀ (steps : List ℚ) (acc : ValueAndPoint) (b : Bool),
    steps.foldl (gdScanStep f fok pt grad) (acc, b)
      = (foldMinVP acc (candList f fok pt grad steps),
         b || !(candList f fok pt grad steps).isEmpty) := by
  intro steps
  induction steps with
  | nil => intro acc b; simp [candList, foldMinVP]
  | cons s rest ih =>
    intro acc b
    by_cases h : fok (SumVectors pt grad (-s)) = true
    · simp only [List.foldl_cons, candList, List.filterMap_cons, h, gdScanStep, if_pos]
      rw [ih]
      simp [candList, foldMinVP]
    · have h' : fok (SumVectors pt grad (-s)) = false := by
        cases hv : fok (SumVectors pt grad (-s)) with
        | true => exact absurd hv h
        | false => rfl
      simp only [List.foldl_cons, candList, List.filterMap_cons, h', gdScanStep,
        Bool.false_eq_true, if_neg, if_false]
      rw [ih]
      simp [candList]

/-- Folding the running `std::min` from `acc` yields `acc` tempered by the stable
minimum of the list: the first minimal element wins ties, and `acc` wins ties against
the list. -/
theorem foldMinVP_firstMinVP :
    ∀ (l : List ValueAndPoint) (acc : ValueAndPoint),
    foldMinVP acc l = (match firstMinVP l with
      | none => acc
      | some m => minVP acc m) := by
  intro l
  induction l with
  | nil => intro acc; simp [foldMinVP, firstMinVP]
  | cons c rest ih =>
    intro acc
    have : foldMinVP acc (c :: rest) = foldMinVP (minVP acc c) rest := rfl
    rw [this, ih]
    cases hm : firstMinVP rest with
    | none => simp [firstMinVP, hm]
    | some m =>
      simp only [firstMinVP, hm]
      unfold minVP
      split_ifs <;> first | rfl | (exfalso; linarith)

/-- `firstMinVP` returns a candidate exactly on nonempty lists. -/
theorem firstMinVP_eq_none_iff :
    ∀ (l : List ValueAndPoint), firstMinVP l = none ↔ l = [] := by
  intro l
  cases l with
  | nil => simp [firstMinVP]
  | cons c rest =>
    simp only [firstMinVP]
    cases firstMinVP rest <;> simp

/-- Counterexample for claim C3: on `exWorseF` every finite trial candidate is worse
than `current = (1, [1])`; the stable minimum over the finite candidates alone is
`(2, [99/100])`, but the code's iteration best — seeded with `current` — is
`current` itself, not a point of the form `current.point - step * g`. -/
theorem claim3_counterexample :
    (gdScan exWorseF allFiniteOracle ⟨1, [1]⟩ [1]).1 = ⟨1, [1]⟩
    ∧ firstMinVP (gdFiniteCandidates exWorseF allFiniteOracle [1] [1])
        = some ⟨2, [99 / 100]⟩
    ∧ ((⟨1, [1]⟩ : ValueAndPoint) ≠ ⟨2, [99 / 100]⟩) := by
  refine ⟨?_, ?_, ?_⟩ <;> with_unfolding_all decide

/-- Claim C3 as amended: in an iteration with at least one finite trial candidate, the
iteration's best is the stable minimum of `current` and the finite candidates in
listed order — equivalently `std::min(current, m)` where `m` is the first
minimal-value finite candidate; it equals a trial point `current.point - step * g`
only when that candidate strictly improves on `current`. -/
theorem claim3_theorem :
    ∀ (f : List ℚ → ℚ) (fok : List ℚ → Bool) (cur : ValueAndPoint) (grad : List ℚ),
      gdFiniteCandidates f fok cur.point grad ≠ [] →
      ∃ m, firstMinVP (gdFiniteCandidates f fok cur.point grad) = some m
        ∧ (gdScan f fok cur grad).1 = minVP cur m
        ∧ (gdScan f fok cur grad).2 = true := by
  intro f fok cur grad h
  have hcl : gdFiniteCandidates f fok cur.point grad
      = candList f fok cur.point grad gdSteps := rfl
  have hs : gdScan f fok cur grad
      = (foldMinVP cur (candList f fok cur.point grad gdSteps),
         false || !(candList f fok cur.point grad gdSteps).isEmpty) :=
    gdScanStep_foldl f fok cur.point grad gdSteps cur false
  cases hm : firstMinVP (gdFiniteCandidates f fok cur.point grad) with
  | none => exact absurd ((firstMinVP_eq_none_iff _).mp hm) h
  | some m =>
    refine ⟨m, rfl, ?_, ?_⟩
    · rw [hs]
      have := foldMinVP_firstMinVP (candList f fok cur.point grad gdSteps) cur
      rw [this]
      rw [hcl] at hm
      simp [hm]
    · rw [hs]
      simp only [Bool.false_or, Bool.not_eq_true']
      rw [hcl] at h
      simp [List.isEmpty_iff, h]

/-- Witness for claim C3 (amended): on the counterexample inputs the scan equals
`std::min(current, m)` with `m = (2, [99/100])` the first minimal finite candidate. -/
theorem claim3_witness :
    ∃ m, firstMinVP (gdFiniteCandidates exWorseF allFiniteOracle
          (⟨1, [1]⟩ : ValueAndPoint).point [1]) = some m
      ∧ (gdScan exWorseF allFiniteOracle ⟨1, [1]⟩ [1]).1 = minVP ⟨1, [1]⟩ m
      ∧ (gdScan exWorseF allFiniteOracle ⟨1, [1]⟩ [1]).2 = true :=
  claim3_theorem exWorseF allFiniteOracle ⟨1, [1]⟩ [1]
    (by with_unfolding_all decide)

/-- `std::min` never increases the first argument's value. -/
theorem minVP_value_le (a b : ValueAndPoint) : (minVP a b).value ≤ a.value := by
  unfold minVP
  split_ifs with h
  · exact le_of_lt h
  · exact le_refl _

/-- The running `std::min` fold never increases the seed's value. -/
theorem foldMinVP_value_le :
    ∀ (l : List ValueAndPoint) (acc : ValueAndPoint),
    (foldMinVP acc l).value ≤ acc.value := by
  intro l
  induction l with
  | nil => intro acc; exact le_refl _
  | cons c rest ih =>
    intro acc
    have h1 : foldMinVP acc (c :: rest) = foldMinVP (minVP acc c) rest := rfl
    rw [h1]
    exact le_trans (ih (minVP acc c)) (minVP_value_le acc c)

/-- The best candidate of a plain gradient-descent iteration never has a larger value
than the current point (the scan is seeded with `current`). -/
theorem gdScan_value_le (f : List ℚ → ℚ) (fok : List ℚ → Bool)
    (cur : ValueAndPoint) (grad : List ℚ) :
    (gdScan f fok cur grad).1.value ≤ cur.value := by
  have hs : gdScan f fok cur grad
      = (foldMinVP cur (candList f fok cur.point grad gdSteps),
         false || !(candList f fok cur.point grad gdSteps).isEmpty) :=
    gdScanStep_foldl f fok cur.point grad gdSteps cur false
  rw [hs]
  exact foldMinVP_value_le _ cur

/-- Plain gradient descent is monotone: any successful result of the loop has a value
no larger than the value of the state it started from. -/
theorem gdLoop_value_le (f : List ℚ → ℚ) (fok : List ℚ → Bool) (g : List ℚ → List ℚ)
    (pr : GDParams) : ∀ (fuel : Nat) (cur : ValueAndPoint) (noImp : Nat)
    (r : ValueAndPoint) (reason : ExitReason),
    (gdLoop f fok g pr fuel cur noImp).1 = Except.ok (r, reason) →
    r.value ≤ cur.value := by
  intro fuel
  induction fuel with
  | zero =>
    intro cur noImp r reason h
    simp only [gdLoop, Except.ok.injEq, Prod.mk.injEq] at h
    rw [← h.1]
  | succ n ih =>
    intro cur noImp r reason h
    simp only [gdLoop] at h
    split at h
    · simp at h
    · split at h
      · split at h
        · simp only [Except.ok.injEq, Prod.mk.injEq] at h
          rw [← h.1]
        · exact le_trans (ih _ _ _ _ h) (gdScan_value_le f fok cur (g cur.point))
      · exact le_trans (ih _ _ _ _ h) (gdScan_value_le f fok cur (g cur.point))

/-- The dot product against a sign-flipped vector is the negated dot product. -/
theorem dotVec_flipSign : ∀ (a b : List ℚ), dotVec a (FlipSign b) = -(dotVec a b) := by
  intro a
  induction a with
  | nil => intro b; simp [dotVec, FlipSign]
  | cons x xs ih =>
    intro b
    cases b with
    | nil => simp [dotVec, FlipSign]
    | cons y ys =>
      have hih := ih ys
      simp only [dotVec, FlipSign, List.map_cons, List.zipWith_cons_cons,
        List.sum_cons] at hih ⊢
      rw [hih]
      ring

/-- A sum of squares is nonnegative. -/
theorem L2Norm_nonneg : ∀ (v : List ℚ), 0 ≤ L2Norm v := by
  intro v
  induction v with
  | nil => simp [L2Norm, dotVec]
  | cons x xs ih =>
    simp only [L2Norm, dotVec, List.zipWith_cons_cons, List.sum_cons] at ih ⊢
    nlinarith [mul_self_nonneg x]

/-- When the backtracking search accepts a step via the Armijo condition along a
direction of nonpositive slope, the returned value does not exceed `f(x)`. -/
theorem btSearch_accept_le (f : List ℚ → ℚ) (x d : List ℚ) (alpha beta fx slope : ℚ)
    (ha : 0 ≤ alpha) (hb : 0 ≤ beta) (hs : slope ≤ 0) :
    ∀ (steps : Nat) (t : ℚ), 0 ≤ t →
    btAccepts f x d alpha beta fx slope steps t = true →
    (btSearch f x d alpha beta fx slope steps t).value ≤ fx := by
  intro steps
  induction steps with
  | zero =>
    intro t ht hacc
    simp only [btAccepts, decide_eq_true_eq] at hacc
    simp only [btSearch]
    nlinarith [mul_nonneg ha ht]
  | succ n ih =>
    intro t ht hacc
    simp only [btAccepts, Bool.or_eq_true, decide_eq_true_eq] at hacc
    by_cases hfirst : f (SumVectors x d t) ≤ fx + alpha * t * slope
    · simp only [btSearch, if_pos hfirst]
      nlinarith [mul_nonneg ha ht]
    · have hrest : btAccepts f x d alpha beta fx slope n (beta * t) = true := by
        rcases hacc with hcase | hcase
        · exact absurd hcase hfirst
        · exact hcase
      simp only [btSearch, if_neg hfirst]
      exact ih (beta * t) (mul_nonneg hb ht) hrest

/-- Counterexample for claim C4: on `exCliffF` the Armijo condition never holds, the
backtracking budget is exhausted, and `GradientDescentOptimizerBT` adopts the returned
last-tried point: the run starts at value `1` and ends at value `2`, so some iteration
strictly increased `current.value`. -/
theorem claim4_counterexample :
    (GradientDescentOptimizeBT exCliffF exUnitG exBTParams [10]).1.1.value = 2
    ∧ exCliffF [10] = 1
    ∧ ¬ ((2 : ℚ) ≤ 1) := by
  refine ⟨?_, ?_, ?_⟩ <;> with_unfolding_all decide

/-- Claim C4 as amended: plain gradient descent never adopts a worse point (every
successful result's value is at most the starting state's value); for the
backtracking-based optimizers the adopted value does not exceed `current.value`
whenever the line search accepts a step via the Armijo condition along the descent
direction `-gradient` — but when the halving budget is exhausted the last-tried,
possibly worse, point is adopted (see the counterexample). -/
theorem claim4_theorem :
    (∀ (f : List ℚ → ℚ) (fok : List ℚ → Bool) (g : List ℚ → List ℚ) (pr : GDParams)
        (fuel : Nat) (cur : ValueAndPoint) (noImp : Nat)
        (r : ValueAndPoint) (reason : ExitReason),
        (gdLoop f fok g pr fuel cur noImp).1 = Except.ok (r, reason) →
        r.value ≤ cur.value)
    ∧ (∀ (f : List ℚ → ℚ) (g : List ℚ → List ℚ) (x : List ℚ) (alpha beta : ℚ)
        (n : Nat), 0 ≤ alpha → 0 ≤ beta →
        btAccepts f x (FlipSign (g x)) alpha beta (f x)
            (dotVec (g x) (FlipSign (g x))) n 1 = true →
        (Backtracking f g x (FlipSign (g x)) alpha beta n).value ≤ f x) := by
  constructor
  · exact fun f fok g pr fuel cur noImp r reason h =>
      gdLoop_value_le f fok g pr fuel cur noImp r reason h
  · intro f g x alpha beta n ha hb hacc
    have hslope : dotVec (g x) (FlipSign (g x)) ≤ 0 := by
      rw [dotVec_flipSign]
      have := L2Norm_nonneg (g x)
      simp only [L2Norm] at this
      linarith
    exact btSearch_accept_le f x (FlipSign (g x)) alpha beta (f x)
      (dotVec (g x) (FlipSign (g x))) ha hb hslope n 1 (by norm_num) hacc

/-- Witness for claim C4 (amended): a concrete monotone plain-gradient-descent run,
and a concrete accepted line-search step bounded by the starting value. -/
theorem claim4_witness :
    (⟨1, [0]⟩ : ValueAndPoint).value ≤ (⟨1, [0]⟩ : ValueAndPoint).value
    ∧ (Backtracking exConstF exUnitG [3] (FlipSign (exUnitG [3])) 0 (1 / 2) 1).value
        ≤ exConstF [3] :=
  ⟨claim4_theorem.1 exStepF allFiniteOracle exUnitG exGDParams 5 ⟨1, [0]⟩ 0
      ⟨1, [0]⟩ ExitReason.noImprovement (by with_unfolding_all decide),
   claim4_theorem.2 exConstF exUnitG [3] 0 (1 / 2) 1 (by norm_num) (by norm_num)
      (by with_unfolding_all decide)⟩

/-- Counterexample for claim C6: with `min_steps = 0` and `grad_eps = 10^10` but a
gradient of `[10^10 + 1]` at the start, `sqrt(L2Norm) < grad_eps` is false
(`(10^10 + 1)^2 ≥ 10^20`), so the backtracking optimizer does not terminate via the
gradient-norm early-stop path on the first iteration; it runs the line search and
exits by `max_steps` instead. -/
theorem claim6_counterexample :
    (GradientDescentOptimizeBT exConstF exHugeG exOverrideParams [0]).1.2
        = ExitReason.maxSteps
    ∧ (GradientDescentOptimizeBT exConstF exHugeG exOverrideParams [0]).1.2
        ≠ ExitReason.gradNorm := by
  constructor <;> with_unfolding_all decide

/-- Claim C6 as amended: with `min_steps = 0` and `grad_eps = 10^10` (and at least one
allowed iteration), the backtracking optimizer terminates on the very first iteration
via the gradient-norm early-stop path PROVIDED the squared gradient norm at the start
is below `grad_eps^2 = 10^20`; the conjugate-gradient optimizer (with the default
`no_improvement_steps_to_terminate = 2`) terminates on the first iteration via the
same path — after its one line-search pass, since its check sits at the end of the
body and tests the updated direction `s` — provided `L2Norm(s) < 10^20` there. -/
theorem claim6_theorem :
    (∀ (f : List ℚ → ℚ) (g : List ℚ → List ℚ) (pr : BTParams) (x : List ℚ),
        pr.minSteps = 0 → pr.gradEps = 10000000000 → 1 ≤ pr.maxSteps →
        L2Norm (g x) < 100000000000000000000 →
        GradientDescentOptimizeBT f g pr x = ((⟨f x, x⟩, ExitReason.gradNorm), 1))
    ∧ (∀ (f : List ℚ → ℚ) (g : List ℚ → List ℚ) (pr : BTParams) (x : List ℚ)
        (next : ValueAndPoint) (s2 : List ℚ),
        pr.minSteps = 0 → pr.gradEps = 10000000000 → pr.noImpTerm = 2 →
        1 ≤ pr.maxSteps →
        next = Backtracking f g x (FlipSign (g x)) pr.btAlpha pr.btBeta pr.btMaxSteps →
        s2 = SumVectorsScaled (FlipSign (g x)) (g next.point)
              (max (PolakRibiere (g next.point) (g x)) 0) (-1) →
        L2Norm s2 < 100000000000000000000 →
        ConjugateGradientOptimize f g pr x = ((next, ExitReason.gradNorm), 1)) := by
  constructor
  · intro f g pr x h0 he hms hnorm
    obtain ⟨m, hm⟩ : ∃ m, pr.maxSteps = m + 1 := ⟨pr.maxSteps - 1, by omega⟩
    have hcond : sqrtLtQ (L2Norm (g x)) pr.gradEps = true := by
      unfold sqrtLtQ
      rw [he, if_neg (by norm_num)]
      simp only [decide_eq_true_eq]
      calc L2Norm (g x) < 100000000000000000000 := hnorm
        _ = (10000000000 : ℚ) * 10000000000 := by norm_num
    unfold GradientDescentOptimizeBT
    rw [hm]
    simp [btLoop, hcond, h0]
  · intro f g pr x next s2 h0 he hterm hms hnext hs2 hnorm
    subst hnext
    subst hs2
    obtain ⟨m, hm⟩ : ∃ m, pr.maxSteps = m + 1 := ⟨pr.maxSteps - 1, by omega⟩
    have hcond : sqrtLtQ (L2Norm (SumVectorsScaled (FlipSign (g x))
        (g (Backtracking f g x (FlipSign (g x)) pr.btAlpha pr.btBeta pr.btMaxSteps).point)
        (max (PolakRibiere
          (g (Backtracking f g x (FlipSign (g x)) pr.btAlpha pr.btBeta pr.btMaxSteps).point)
          (g x)) 0) (-1))) pr.gradEps = true := by
      unfold sqrtLtQ
      rw [he, if_neg (by norm_num)]
      simp only [decide_eq_true_eq]
      calc L2Norm _ < 100000000000000000000 := hnorm
        _ = (10000000000 : ℚ) * 10000000000 := by norm_num
    have hreach : ¬ pr.noImpTerm ≤ 1 := by
      rw [hterm]; norm_num
    unfold ConjugateGradientOptimize
    rw [hm]
    by_cases hins : insufficientQ pr.minRel pr.minAbs
        (⟨f x, x⟩ : ValueAndPoint).value
        (Backtracking f g x (FlipSign (g x)) pr.btAlpha pr.btBeta pr.btMaxSteps).value
        = true
    · simp [cgLoop, hins, hreach, hcond, h0]
    · simp only [Bool.not_eq_true] at hins
      simp [cgLoop, hins, hcond, h0]

/-- Witness for claim C6 (amended): with the override parameters and a unit gradient,
the backtracking optimizer exits at once via the gradient-norm path, and the
conjugate-gradient optimizer exits after its single line-search pass via the same
path. -/
theorem claim6_witness :
    GradientDescentOptimizeBT exConstF exUnitG exOverrideParams [0]
        = ((⟨5, [0]⟩, ExitReason.gradNorm), 1)
    ∧ ConjugateGradientOptimize exConstF exUnitG exOverrideParams [0]
        = ((⟨5, [-(1 / 2)]⟩, ExitReason.gradNorm), 1) :=
  ⟨claim6_theorem.1 exConstF exUnitG exOverrideParams [0] rfl rfl
      (by norm_num [exOverrideParams]) (by with_unfolding_all decide),
   claim6_theorem.2 exConstF exUnitG exOverrideParams [0] ⟨5, [-(1 / 2)]⟩ [-1]
      rfl rfl rfl (by norm_num [exOverrideParams]) (by with_unfolding_all decide)
      (by with_unfolding_all decide) (by with_unfolding_all decide)⟩

/-- The plain gradient-descent loop fails exactly when some executed iteration finds
no finite trial candidate. -/
theorem gdLoop_error_iff (f : List ℚ → ℚ) (fok : List ℚ → Bool) (g : List ℚ → List ℚ)
    (pr : GDParams) : ∀ (fuel : Nat) (cur : ValueAndPoint) (noImp : Nat),
    (∃ e, (gdLoop f fok g pr fuel cur noImp).1 = Except.error e)
      ↔ GDReachesBad f fok g pr fuel cur noImp := by
  intro fuel
  induction fuel with
  | zero =>
    intro cur noImp
    constructor
    · rintro ⟨e, he⟩
      simp [gdLoop] at he
    · intro hbad
      cases hbad
  | succ n ih =>
    intro cur noImp
    by_cases hv : (gdScan f fok cur (g cur.point)).2 = true
    · by_cases hins : insufficientQ pr.minRel pr.minAbs cur.value
          (gdScan f fok cur (g cur.point)).1.value = true
      · by_cases hreach : pr.noImpTerm ≤ ((noImp : ℚ) + 1)
        · have hres : gdLoop f fok g pr (n + 1) cur noImp
              = (Except.ok (cur, ExitReason.noImprovement), 1) := by
            simp [gdLoop, hv, hins, hreach]
          constructor
          · rintro ⟨e, he⟩
            rw [hres] at he
            simp at he
          · intro hbad
            cases hbad with
            | here _ _ _ h => rw [hv] at h; simp at h
            | laterInsuff _ _ _ hval hins2 hnr hrec => exact absurd hreach hnr
            | laterSuff _ _ _ hval hins2 hrec => rw [hins] at hins2; simp at hins2
        · have hres : gdLoop f fok g pr (n + 1) cur noImp
              = ((gdLoop f fok g pr n (gdScan f fok cur (g cur.point)).1 (noImp + 1)).1,
                 (gdLoop f fok g pr n (gdScan f fok cur (g cur.point)).1 (noImp + 1)).2
                   + 1) := by
            simp [gdLoop, hv, hins, hreach]
          constructor
          · rintro ⟨e, he⟩
            rw [hres] at he
            exact GDReachesBad.laterInsuff n cur noImp hv hins hreach
              ((ih _ _).mp ⟨e, he⟩)
          · intro hbad
            cases hbad with
            | here _ _ _ h => rw [hv] at h; simp at h
            | laterInsuff _ _ _ hval hins2 hnr hrec =>
              obtain ⟨e, he⟩ := (ih _ _).mpr hrec
              exact ⟨e, by rw [hres]; exact he⟩
            | laterSuff _ _ _ hval hins2 hrec => rw [hins] at hins2; simp at hins2
      · have hins' : insufficientQ pr.minRel pr.minAbs cur.value
            (gdScan f fok cur (g cur.point)).1.value = false := by
          simpa using hins
        have hres : gdLoop f fok g pr (n + 1) cur noImp
            = ((gdLoop f fok g pr n (gdScan f fok cur (g cur.point)).1 0).1,
               (gdLoop f fok g pr n (gdScan f fok cur (g cur.point)).1 0).2 + 1) := by
          simp [gdLoop, hv, hins']
        constructor
        · rintro ⟨e, he⟩
          rw [hres] at he
          exact GDReachesBad.laterSuff n cur noImp hv hins' ((ih _ _).mp ⟨e, he⟩)
        · intro hbad
          cases hbad with
          | here _ _ _ h => rw [hv] at h; simp at h
          | laterInsuff _ _ _ hval hins2 hnr hrec => rw [hins'] at hins2; simp at hins2
          | laterSuff _ _ _ hval hins2 hrec =>
            obtain ⟨e, he⟩ := (ih _ _).mpr hrec
            exact ⟨e, by rw [hres]; exact he⟩
    · have hv' : (gdScan f fok cur (g cur.point)).2 = false := by
        simpa using hv
      constructor
      · intro _
        exact GDReachesBad.here n cur noImp hv'
      · intro _
        exact ⟨"!fncas::IsNormal(value)", by simp [gdLoop, hv']⟩

/-- The only failure the plain gradient-descent loop ever produces carries the
`IsNormal` diagnostic of source line 177. -/
theorem gdLoop_error_msg (f : List ℚ → ℚ) (fok : List ℚ → Bool) (g : List ℚ → List ℚ)
    (pr : GDParams) : ∀ (fuel : Nat) (cur : ValueAndPoint) (noImp : Nat) (e : String),
    (gdLoop f fok g pr fuel cur noImp).1 = Except.error e →
    e = "!fncas::IsNormal(value)" := by
  intro fuel
  induction fuel with
  | zero =>
    intro cur noImp e he
    simp [gdLoop] at he
  | succ n ih =>
    intro cur noImp e he
    simp only [gdLoop] at he
    split at he
    · simp only [Except.error.injEq] at he
      exact he.symm
    · split at he
      · split at he
        · simp at he
        · exact ih _ _ _ he
      · exact ih _ _ _ he

/-- Claim C2: plain gradient descent raises the Optimization Failure error if and only
if some executed iteration finds every one of the three trial step sizes non-finite
(`GDReachesBad`); the error message is always the single `IsNormal` diagnostic of
source line 177, the only failure site in the optimizer core (the backtracking-based
optimizers of this embedding have error-free result types, mirroring the absence of
any `CURRENT_THROW` in their source).  The third conjunct states the equivalence at
the `Optimize` entry point. -/
theorem claim2_theorem :
    ∀ (f : List ℚ → ℚ) (fok : List ℚ → Bool) (g : List ℚ → List ℚ) (pr : GDParams)
      (fuel : Nat) (cur : ValueAndPoint) (noImp : Nat) (x : List ℚ),
      ((∃ e, (gdLoop f fok g pr fuel cur noImp).1 = Except.error e)
        ↔ GDReachesBad f fok g pr fuel cur noImp)
      ∧ (∀ e, (gdLoop f fok g pr fuel cur noImp).1 = Except.error e →
          e = "!fncas::IsNormal(value)")
      ∧ ((∃ e, (GradientDescentOptimize f fok g pr x).1 = Except.error e)
        ↔ GDReachesBad f fok g pr pr.maxSteps ⟨f x, x⟩ 0) := by
  intro f fok g pr fuel cur noImp x
  exact ⟨gdLoop_error_iff f fok g pr fuel cur noImp,
         fun e he => gdLoop_error_msg f fok g pr fuel cur noImp e he,
         gdLoop_error_iff f fok g pr pr.maxSteps ⟨f x, x⟩ 0⟩

/-- Witness for claim C2: an objective that is non-finite everywhere makes the very
first iteration fail, so `Optimize` returns the error. -/
theorem claim2_witness :
    ∃ e, (GradientDescentOptimize exConstF noneFiniteOracle exUnitG exGDParams [0]).1
      = Except.error e :=
  (claim2_theorem exConstF noneFiniteOracle exUnitG exGDParams 5 ⟨5, [0]⟩ 0 [0]).2.2.mpr
    (GDReachesBad.here 4 ⟨5, [0]⟩ 0 (by with_unfolding_all decide))

/-- Adding any multiple of the zero vector leaves a point unchanged. -/
theorem SumVectors_zeroVec (l : List ℚ) (k : ℚ) : SumVectors l (zeroVec l) k = l := by
  induction l with
  | nil => rfl
  | cons a as ih =>
    simp only [SumVectors, zeroVec, List.map_cons, List.zipWith_cons_cons] at ih ⊢
    rw [mul_zero, add_zero]
    exact congrArg (List.cons a) ih

/-- Negating the zero vector leaves it unchanged. -/
theorem FlipSign_zeroVec (l : List ℚ) : FlipSign (zeroVec l) = zeroVec l := by
  simp [FlipSign, zeroVec, List.map_map, Function.comp]

/-- A dot product against a zero vector vanishes. -/
theorem dotVec_zeroVec_right : ∀ (a l : List ℚ), dotVec a (zeroVec l) = 0 := by
  intro a
  induction a with
  | nil => intro l; simp [dotVec]
  | cons y ys ih =>
    intro l
    cases l with
    | nil => simp [dotVec, zeroVec]
    | cons b bs =>
      have hih := ih bs
      simp only [dotVec, zeroVec, List.map_cons, List.zipWith_cons_cons,
        List.sum_cons] at hih ⊢
      rw [mul_zero, hih]
      ring

/-- Blending two zero vectors yields the zero vector. -/
theorem SumVectorsScaled_zeroVec (l : List ℚ) (ka kb : ℚ) :
    SumVectorsScaled (zeroVec l) (zeroVec l) ka kb = zeroVec l := by
  induction l with
  | nil => rfl
  | cons a as ih =>
    simp only [SumVectorsScaled, zeroVec, List.map_cons, List.zipWith_cons_cons] at ih ⊢
    rw [mul_zero, mul_zero, add_zero]
    exact congrArg (List.cons 0) ih

/-- The backtracking search along the zero direction accepts the unit step at once and
returns the unchanged point with its value. -/
theorem Backtracking_zeroDir (f : List ℚ → ℚ) (g : List ℚ → List ℚ) (x : List ℚ)
    (alpha beta : ℚ) (n : Nat) :
    Backtracking f g x (zeroVec x) alpha beta n = ⟨f x, x⟩ := by
  unfold Backtracking
  rw [dotVec_zeroVec_right (g x) x]
  cases n with
  | zero => simp [btSearch, SumVectors_zeroVec]
  | succ m => simp [btSearch, SumVectors_zeroVec]

/-- A step from value `c` to value `c` is always an insufficient improvement when the
absolute threshold is positive. -/
theorem insufficientQ_const (minRel minAbs c : ℚ) (habs : 0 < minAbs) :
    insufficientQ minRel minAbs c c = true := by
  simp [insufficientQ, sub_self, habs]

/-- On a constant objective with zero gradient and all values finite, the candidate
scan returns the current point with the valid flag set. -/
theorem gdScan_const (f : List ℚ → ℚ) (fok : List ℚ → Bool) (g : List ℚ → List ℚ)
    (c : ℚ) (x : List ℚ)
    (hf : ∀ p, f p = c) (hg : ∀ p, g p = zeroVec p) (hok : ∀ p, fok p = true) :
    gdScan f fok ⟨c, x⟩ (g x) = (⟨c, x⟩, true) := by
  rw [hg]
  simp [gdScan, gdSteps, gdScanStep, SumVectors_zeroVec, hok, hf, minVP, lt_irrefl]

/-- On a constant objective, plain gradient descent runs exactly until the
no-improvement counter reaches the threshold `N`: the entry count is bounded by
`N - noImp`, and with enough fuel the loop returns the unchanged state via the
no-improvement exit after exactly `N - noImp` further entries. -/
theorem gdLoop_const (f : List ℚ → ℚ) (fok : List ℚ → Bool) (g : List ℚ → List ℚ)
    (pr : GDParams) (c : ℚ) (x : List ℚ) (N : ℕ)
    (hf : ∀ p, f p = c) (hg : ∀ p, g p = zeroVec p) (hok : ∀ p, fok p = true)
    (habs : 0 < pr.minAbs) (hterm : pr.noImpTerm = (N : ℚ)) :
    ∀ (fuel : Nat) (noImp : Nat), noImp < N →
      (gdLoop f fok g pr fuel ⟨c, x⟩ noImp).2 ≤ N - noImp
      ∧ (N - noImp ≤ fuel →
          gdLoop f fok g pr fuel ⟨c, x⟩ noImp
            = (Except.ok (⟨c, x⟩, ExitReason.noImprovement), N - noImp)) := by
  intro fuel
  induction fuel with
  | zero =>
    intro noImp hlt
    exact ⟨by simp [gdLoop], fun h => absurd h (by omega)⟩
  | succ m ih =>
    intro noImp hlt
    have hscan : gdScan f fok (⟨c, x⟩ : ValueAndPoint) (g x) = (⟨c, x⟩, true) :=
      gdScan_const f fok g c x hf hg hok
    have hins : insufficientQ pr.minRel pr.minAbs c c = true :=
      insufficientQ_const pr.minRel pr.minAbs c habs
    by_cases hreach : pr.noImpTerm ≤ ((noImp : ℚ) + 1)
    · have hN1 : noImp + 1 = N := by
        rw [hterm] at hreach
        have h2 : N ≤ noImp + 1 := by exact_mod_cast hreach
        omega
      have hres : gdLoop f fok g pr (m + 1) ⟨c, x⟩ noImp
          = (Except.ok (⟨c, x⟩, ExitReason.noImprovement), 1) := by
        simp [gdLoop, hscan, hins, hreach]
      refine ⟨by rw [hres]; omega, fun h => ?_⟩
      rw [hres, show N - noImp = 1 by omega]
    · have hlt2 : noImp + 1 < N := by
        rcases Nat.lt_or_ge (noImp + 1) N with h | h
        · exact h
        · exact absurd (by rw [hterm]; exact_mod_cast h) hreach
      have hres : gdLoop f fok g pr (m + 1) ⟨c, x⟩ noImp
          = ((gdLoop f fok g pr m ⟨c, x⟩ (noImp + 1)).1,
             (gdLoop f fok g pr m ⟨c, x⟩ (noImp + 1)).2 + 1) := by
        simp [gdLoop, hscan, hins, hreach]
      obtain ⟨ihc, ihe⟩ := ih (noImp + 1) hlt2
      refine ⟨by rw [hres]; simp; omega, fun h => ?_⟩
      rw [hres, ihe (by omega)]
      rw [show N - (noImp + 1) + 1 = N - noImp by omega]

/-- On a constant objective with zero gradient, the backtracking optimizer's loop runs
exactly until the no-improvement counter reaches the threshold `N`, provided
`N ≤ min_steps` keeps the gradient-norm early stop disabled. -/
theorem btLoop_const (f : List ℚ → ℚ) (g : List ℚ → List ℚ) (pr : BTParams)
    (c : ℚ) (x : List ℚ) (N : ℕ)
    (hf : ∀ p, f p = c) (hg : ∀ p, g p = zeroVec p)
    (habs : 0 < pr.minAbs) (hterm : pr.noImpTerm = (N : ℚ)) (hminN : N ≤ pr.minSteps) :
    ∀ (fuel iter noImp : Nat), noImp < N → iter = noImp →
      (btLoop f g pr fuel iter ⟨c, x⟩ noImp).2 ≤ N - noImp
      ∧ (N - noImp ≤ fuel →
          btLoop f g pr fuel iter ⟨c, x⟩ noImp
            = ((⟨c, x⟩, ExitReason.noImprovement), N - noImp)) := by
  intro fuel
  induction fuel with
  | zero =>
    intro iter noImp hlt hiter
    exact ⟨by simp [btLoop], fun h => absurd h (by omega)⟩
  | succ m ih =>
    intro iter noImp hlt hiter
    have hes : (sqrtLtQ (L2Norm (g x)) pr.gradEps && decide (pr.minSteps ≤ iter))
        = false := by
      have hit : ¬ pr.minSteps ≤ iter := by omega
      simp [hit]
    have hnext : Backtracking f g x (FlipSign (g x)) pr.btAlpha pr.btBeta pr.btMaxSteps
        = ⟨c, x⟩ := by
      rw [hg, FlipSign_zeroVec, Backtracking_zeroDir, hf]
    have hins : insufficientQ pr.minRel pr.minAbs c c = true :=
      insufficientQ_const pr.minRel pr.minAbs c habs
    by_cases hreach : pr.noImpTerm ≤ ((noImp : ℚ) + 1)
    · have hN1 : noImp + 1 = N := by
        rw [hterm] at hreach
        have h2 : N ≤ noImp + 1 := by exact_mod_cast hreach
        omega
      have hres : btLoop f g pr (m + 1) iter ⟨c, x⟩ noImp
          = ((⟨c, x⟩, ExitReason.noImprovement), 1) := by
        simp [btLoop, hes, hnext, hins, hreach]
      refine ⟨by rw [hres]; omega, fun h => ?_⟩
      rw [hres, show N - noImp = 1 by omega]
    · have hlt2 : noImp + 1 < N := by
        rcases Nat.lt_or_ge (noImp + 1) N with h | h
        · exact h
        · exact absurd (by rw [hterm]; exact_mod_cast h) hreach
      have hres : btLoop f g pr (m + 1) iter ⟨c, x⟩ noImp
          = ((btLoop f g pr m (iter + 1) ⟨c, x⟩ (noImp + 1)).1,
             (btLoop f g pr m (iter + 1) ⟨c, x⟩ (noImp + 1)).2 + 1) := by
        simp [btLoop, hes, hnext, hins, hreach]
      obtain ⟨ihc, ihe⟩ := ih (iter + 1) (noImp + 1) hlt2 (by omega)
      refine ⟨by rw [hres]; simp; omega, fun h => ?_⟩
      rw [hres, ihe (by omega)]
      rw [show N - (noImp + 1) + 1 = N - noImp by omega]

/-- On a constant objective with zero gradient, the conjugate-gradient loop (in its
all-zero direction state) runs exactly until the no-improvement counter reaches the
threshold `N`, provided `N ≤ min_steps` keeps the early stop disabled. -/
theorem cgLoop_const (f : List ℚ → ℚ) (g : List ℚ → List ℚ) (pr : BTParams)
    (c : ℚ) (x : List ℚ) (N : ℕ)
    (hf : ∀ p, f p = c) (hg : ∀ p, g p = zeroVec p)
    (habs : 0 < pr.minAbs) (hterm : pr.noImpTerm = (N : ℚ)) (hminN : N ≤ pr.minSteps) :
    ∀ (fuel iter noImp : Nat), noImp < N → iter = noImp →
      (cgLoop f g pr fuel iter ⟨c, x⟩ (zeroVec x) (zeroVec x) noImp).2 ≤ N - noImp
      ∧ (N - noImp ≤ fuel →
          cgLoop f g pr fuel iter ⟨c, x⟩ (zeroVec x) (zeroVec x) noImp
            = ((⟨c, x⟩, ExitReason.noImprovement), N - noImp)) := by
  intro fuel
  induction fuel with
  | zero =>
    intro iter noImp hlt hiter
    exact ⟨by simp [cgLoop], fun h => absurd h (by omega)⟩
  | succ m ih =>
    intro iter noImp hlt hiter
    have hnext : Backtracking f g x (zeroVec x) pr.btAlpha pr.btBeta pr.btMaxSteps
        = ⟨c, x⟩ := by
      rw [Backtracking_zeroDir, hf]
    have hgrad : g x = zeroVec x := hg x
    have hprc : PolakRibiere (zeroVec x) (zeroVec x) = 0 := by
      unfold PolakRibiere
      rw [dotVec_zeroVec_right (zeroVec x) x]
      exact div_zero _
    have hs2 : SumVectorsScaled (zeroVec x) (zeroVec x)
        (max (PolakRibiere (zeroVec x) (zeroVec x)) 0) (-1) = zeroVec x :=
      SumVectorsScaled_zeroVec x _ _
    have hins : insufficientQ pr.minRel pr.minAbs c c = true :=
      insufficientQ_const pr.minRel pr.minAbs c habs
    have hes : (sqrtLtQ (L2Norm (zeroVec x)) pr.gradEps && decide (pr.minSteps ≤ iter))
        = false := by
      have hit : ¬ pr.minSteps ≤ iter := by omega
      simp [hit]
    by_cases hreach : pr.noImpTerm ≤ ((noImp : ℚ) + 1)
    · have hN1 : noImp + 1 = N := by
        rw [hterm] at hreach
        have h2 : N ≤ noImp + 1 := by exact_mod_cast hreach
        omega
      have hres : cgLoop f g pr (m + 1) iter ⟨c, x⟩ (zeroVec x) (zeroVec x) noImp
          = ((⟨c, x⟩, ExitReason.noImprovement), 1) := by
        simp [cgLoop, hnext, hgrad, hins, hreach]
      refine ⟨by rw [hres]; omega, fun h => ?_⟩
      rw [hres, show N - noImp = 1 by omega]
    · have hlt2 : noImp + 1 < N := by
        rcases Nat.lt_or_ge (noImp + 1) N with h | h
        · exact h
        · exact absurd (by rw [hterm]; exact_mod_cast h) hreach
      have hit : ¬ pr.minSteps ≤ iter := by omega
      have hres : cgLoop f g pr (m + 1) iter ⟨c, x⟩ (zeroVec x) (zeroVec x) noImp
          = ((cgLoop f g pr m (iter + 1) ⟨c, x⟩ (zeroVec x) (zeroVec x) (noImp + 1)).1,
             (cgLoop f g pr m (iter + 1) ⟨c, x⟩ (zeroVec x) (zeroVec x) (noImp + 1)).2
               + 1) := by
        simp [cgLoop, hnext, hgrad, hprc, hs2, SumVectorsScaled_zeroVec, hins, hreach,
          hes, hit]
      obtain ⟨ihc, ihe⟩ := ih (iter + 1) (noImp + 1) hlt2 (by omega)
      refine ⟨by rw [hres]; simp; omega, fun h => ?_⟩
      rw [hres, ihe (by omega)]
      rw [show N - (noImp + 1) + 1 = N - noImp by omega]

/-- Claim C8: on a constant objective (every value `c`, zero gradient everywhere, all
values finite), each of the three optimizers terminates within
`no_improvement_steps_to_terminate = N` iterations via the consecutive-insufficient-
improvement counter, regardless of `max_steps` (the entry-count bound holds for every
`max_steps`; with `max_steps ≥ N` the exit is exactly the no-improvement exit after
`N` entries, at the unchanged starting point).  For the two backtracking-based
optimizers `N ≤ min_steps` keeps the gradient-norm early stop disabled, as with the
default parameters (`N = 2`, `min_steps = 3`). -/
theorem claim8_theorem :
    ∀ (f : List ℚ → ℚ) (fok : List ℚ → Bool) (g : List ℚ → List ℚ)
      (prg : GDParams) (prb : BTParams) (c : ℚ) (x : List ℚ) (N : ℕ),
      (∀ p, f p = c) → (∀ p, g p = zeroVec p) → (∀ p, fok p = true) →
      1 ≤ N → 0 < prg.minAbs → prg.noImpTerm = (N : ℚ) →
      0 < prb.minAbs → prb.noImpTerm = (N : ℚ) → N ≤ prb.minSteps →
      (GradientDescentOptimize f fok g prg x).2 ≤ N
      ∧ (N ≤ prg.maxSteps →
          GradientDescentOptimize f fok g prg x
            = (Except.ok (⟨c, x⟩, ExitReason.noImprovement), N))
      ∧ (GradientDescentOptimizeBT f g prb x).2 ≤ N
      ∧ (N ≤ prb.maxSteps →
          GradientDescentOptimizeBT f g prb x
            = ((⟨c, x⟩, ExitReason.noImprovement), N))
      ∧ (ConjugateGradientOptimize f g prb x).2 ≤ N
      ∧ (N ≤ prb.maxSteps →
          ConjugateGradientOptimize f g prb x
            = ((⟨c, x⟩, ExitReason.noImprovement), N)) := by
  intro f fok g prg prb c x N hf hg hok hN hgabs hgterm habs hterm hminN
  have hgd := gdLoop_const f fok g prg c x N hf hg hok hgabs hgterm prg.maxSteps 0
    (by omega)
  have hbt := btLoop_const f g prb c x N hf hg habs hterm hminN prb.maxSteps 0 0
    (by omega) rfl
  have hcg := cgLoop_const f g prb c x N hf hg habs hterm hminN prb.maxSteps 0 0
    (by omega) rfl
  have hwgd : GradientDescentOptimize f fok g prg x
      = gdLoop f fok g prg prg.maxSteps ⟨c, x⟩ 0 := by
    unfold GradientDescentOptimize
    rw [hf x]
  have hwbt : GradientDescentOptimizeBT f g prb x
      = btLoop f g prb prb.maxSteps 0 ⟨c, x⟩ 0 := by
    unfold GradientDescentOptimizeBT
    rw [hf x]
  have hwcg : ConjugateGradientOptimize f g prb x
      = cgLoop f g prb prb.maxSteps 0 ⟨c, x⟩ (zeroVec x) (zeroVec x) 0 := by
    unfold ConjugateGradientOptimize
    rw [hf x, hg x, FlipSign_zeroVec]
  refine ⟨?_, fun h => ?_, ?_, fun h => ?_, ?_, fun h => ?_⟩
  · rw [hwgd]; simpa using hgd.1
  · rw [hwgd, hgd.2 (by omega)]; simp
  · rw [hwbt]; simpa using hbt.1
  · rw [hwbt, hbt.2 (by omega)]; simp
  · rw [hwcg]; simpa using hcg.1
  · rw [hwcg, hcg.2 (by omega)]; simp

/-- Witness for claim C8: a two-dimensional constant objective of value `5` under the
default parameters terminates in exactly `N = 2` iterations for all three
optimizers. -/
theorem claim8_witness :
    (GradientDescentOptimize exConstF allFiniteOracle exZeroG defaultGDParams
        [1, 2]).2 ≤ 2
    ∧ (2 ≤ defaultGDParams.maxSteps →
        GradientDescentOptimize exConstF allFiniteOracle exZeroG defaultGDParams [1, 2]
          = (Except.ok (⟨5, [1, 2]⟩, ExitReason.noImprovement), 2))
    ∧ (GradientDescentOptimizeBT exConstF exZeroG defaultBTParams [1, 2]).2 ≤ 2
    ∧ (2 ≤ defaultBTParams.maxSteps →
        GradientDescentOptimizeBT exConstF exZeroG defaultBTParams [1, 2]
          = ((⟨5, [1, 2]⟩, ExitReason.noImprovement), 2))
    ∧ (ConjugateGradientOptimize exConstF exZeroG defaultBTParams [1, 2]).2 ≤ 2
    ∧ (2 ≤ defaultBTParams.maxSteps →
        ConjugateGradientOptimize exConstF exZeroG defaultBTParams [1, 2]
          = ((⟨5, [1, 2]⟩, ExitReason.noImprovement), 2)) :=
  claim8_theorem exConstF allFiniteOracle exZeroG defaultGDParams defaultBTParams
    5 [1, 2] 2 (fun _ => rfl) (fun _ => rfl) (fun _ => rfl) (by norm_num)
    (by norm_num [defaultGDParams]) (by norm_num [defaultGDParams])
    (by norm_num [defaultBTParams]) (by norm_num [defaultBTParams])
    (by norm_num [defaultBTParams])

end FnCAS
